import Mathlib

/-!
Shallow embedding of the snake game (src/snake/src/main.rs).

Coordinates are `i16` in the source; all values that arise stay far from the
i16 bounds, so they are modelled as `Int`. Rust's `i16::rem_euclid` on a
positive modulus coincides with Lean's `Int.emod` (`%` on `Int`), which always
returns a value in `[0, modulus)`.

Randomness (`GridPosition::random`) and wall-clock time (`Instant::now()`)
are modelled by passing the drawn position / current timestamp as explicit
parameters to the functions that consume them.
-/

/-- `const GRID_SIZE: (i16, i16) = (30, 20)` — Rust's `.0`/`.1` are Lean's `.1`/`.2`. -/
def GRID_SIZE : Int × Int := (30, 20)

/-- `const MILLIS_PER_UPDATE: u64 = (1.0 / UPDATES_PER_SECOND * 1000.0) as u64`
with `UPDATES_PER_SECOND = 8.0`; the float expression is exact: `125`. -/
def MILLIS_PER_UPDATE : Nat := 125

/-- `struct GridPosition { x: i16, y: i16 }` -/
structure GridPosition where
  x : Int
  y : Int
deriving DecidableEq

/-- `enum Direction { Up, Down, Left, Right }` -/
inductive Direction where
  | Up
  | Down
  | Left
  | Right
deriving DecidableEq

/-- The input key codes the game distinguishes: the four arrow keys mapped by
`Direction::from_keycode`, and `Other` standing for every other `KeyCode`. -/
inductive KeyCode where
  | Up
  | Down
  | Left
  | Right
  | Other
deriving DecidableEq

namespace Direction

/-- `Direction::inverse` -/
def inverse : Direction → Direction
  | Up => Down
  | Down => Up
  | Left => Right
  | Right => Left

/-- `Direction::from_keycode` -/
def from_keycode : KeyCode → Option Direction
  | KeyCode.Up => some Up
  | KeyCode.Down => some Down
  | KeyCode.Left => some Left
  | KeyCode.Right => some Right
  | KeyCode.Other => none

end Direction

namespace GridPosition

/-- `GridPosition::new` -/
def new (x y : Int) : GridPosition :=
  { x := x, y := y }

/-- `GridPosition::wrapped_move`: move one cell in `dir`, wrapping the moved
coordinate with `rem_euclid` (Euclidean remainder). -/
def wrapped_move (pos : GridPosition) (dir : Direction) : GridPosition :=
  match dir with
  | Direction.Up => GridPosition.new pos.x ((pos.y - 1) % GRID_SIZE.2)
  | Direction.Down => GridPosition.new pos.x ((pos.y + 1) % GRID_SIZE.2)
  | Direction.Left => GridPosition.new ((pos.x - 1) % GRID_SIZE.1) pos.y
  | Direction.Right => GridPosition.new ((pos.x + 1) % GRID_SIZE.1) pos.y

/-- The in-range invariant of §3 of the spec: `x ∈ [0, W)`, `y ∈ [0, H)`. -/
def inRange (p : GridPosition) : Prop :=
  0 ≤ p.x ∧ p.x < GRID_SIZE.1 ∧ 0 ≤ p.y ∧ p.y < GRID_SIZE.2

instance (p : GridPosition) : Decidable p.inRange := by
  unfold inRange; infer_instance

end GridPosition

/-- `struct Segment { pos: GridPosition }` -/
structure Segment where
  pos : GridPosition
deriving DecidableEq

/-- `Segment::new` -/
def Segment.new (pos : GridPosition) : Segment :=
  { pos := pos }

/-- `struct Food { pos: GridPosition }` -/
structure Food where
  pos : GridPosition
deriving DecidableEq

/-- `Food::new` -/
def Food.new (pos : GridPosition) : Food :=
  { pos := pos }

/-- `enum Ate { Itself, Food }` -/
inductive Ate where
  | Itself
  | Food
deriving DecidableEq

/-- `struct Snake`; the `LinkedList<Segment>` body is a `List Segment`
(`push_front` = cons, `push_back` = append, `pop_back` = dropLast). -/
structure Snake where
  head : Segment
  dir : Direction
  body : List Segment
  ate : Option Ate
  last_update_dir : Direction
  next_dir : Option Direction
deriving DecidableEq

namespace Snake

/-- `Snake::new`: head at `pos`, one body segment at `(pos.x - 1, pos.y)`,
moving right. -/
def new (pos : GridPosition) : Snake :=
  { head := Segment.new (GridPosition.new pos.x pos.y)
    dir := Direction.Right
    last_update_dir := Direction.Right
    body := [Segment.new (GridPosition.new (pos.x - 1) pos.y)]
    ate := none
    next_dir := none }

/-- `Snake::eats` -/
def eats (s : Snake) (food : Food) : Bool :=
  s.head.pos == food.pos

/-- `Snake::eats_self`: the loop over `body` looking for a segment at the
head's position. -/
def eats_self (s : Snake) : Bool :=
  s.body.any fun seg => s.head.pos == seg.pos

/-- First statement of `Snake::update`: `if self.last_update_dir == self.dir
&& self.next_dir.is_some() { self.dir = self.next_dir.unwrap();
self.next_dir = None; }`. -/
def commitStep (s : Snake) : Snake :=
  match s.next_dir with
  | some nd => if s.last_update_dir = s.dir then { s with dir := nd, next_dir := none } else s
  | none => s

/-- Second and third statements of `Snake::update`: compute
`new_head = wrapped_move(head.pos, dir)`, push the current head onto the
front of `body`, and set `head = new_head`. -/
def moveStep (s : Snake) : Snake :=
  { s with
    body := s.head :: s.body
    head := Segment.new (GridPosition.wrapped_move s.head.pos s.dir) }

/-- Fourth statement of `Snake::update`: record `ate`, checking
`eats_self` before `eats(food)`. -/
def ateStep (s : Snake) (food : Food) : Snake :=
  { s with
    ate :=
      if s.eats_self then some Ate.Itself
      else if s.eats food then some Ate.Food
      else none }

/-- Fifth statement of `Snake::update`: `if self.ate.is_none()
{ self.body.pop_back(); }`. -/
def trimStep (s : Snake) : Snake :=
  if s.ate.isNone then { s with body := s.body.dropLast } else s

/-- `Snake::update`: the source's statements in order — direction commit,
move, collision/eat check, tail trim, and finally
`self.last_update_dir = self.dir`. -/
def update (s : Snake) (food : Food) : Snake :=
  let t := ((s.commitStep.moveStep).ateStep food).trimStep
  { t with last_update_dir := t.dir }

end Snake

/-- `struct GameState`; `last_update: Instant` is a millisecond timestamp. -/
structure GameState where
  snake : Snake
  food : Food
  gameover : Bool
  last_update : Nat
deriving DecidableEq

namespace GameState

/-- `EventHandler::update` for `GameState`. `now` models `Instant::now()` and
`new_food_pos` models the `GridPosition::random` draw made when food is eaten. -/
def update (g : GameState) (now : Nat) (new_food_pos : GridPosition) : GameState :=
  if MILLIS_PER_UPDATE ≤ now - g.last_update then
    let g :=
      if !g.gameover then
        let g := { g with snake := g.snake.update g.food }
        match g.snake.ate with
        | some Ate.Food => { g with food := { g.food with pos := new_food_pos } }
        | some Ate.Itself => { g with gameover := true }
        | none => g
      else g
    { g with last_update := now }
  else g

/-- `EventHandler::key_down_event` for `GameState`. `new_food_pos` models the
`GridPosition::random` draw made on restart. -/
def key_down_event (g : GameState) (keycode : KeyCode) (new_food_pos : GridPosition) : GameState :=
  let g :=
    match Direction.from_keycode keycode with
    | some dir =>
      if g.snake.dir ≠ g.snake.last_update_dir ∧ dir.inverse ≠ g.snake.dir then
        { g with snake := { g.snake with next_dir := some dir } }
      else if dir.inverse ≠ g.snake.last_update_dir then
        { g with snake := { g.snake with dir := dir } }
      else g
    | none => g
  if g.gameover then
    let snake_pos := GridPosition.new (GRID_SIZE.1 / 4) (GRID_SIZE.2 / 2)
    let food_pos := new_food_pos
    { g with
      snake := Snake.new snake_pos
      food := Food.new food_pos
      gameover := false }
  else g

end GameState

/-- Iterated `wrapped_move`: `iterMove k p d` applies `wrapped_move` with the
fixed direction `d`, `k` times, starting from `p`. -/
def iterMove : Nat → GridPosition → Direction → GridPosition
  | 0, p, _ => p
  | k + 1, p, d => GridPosition.wrapped_move (iterMove k p d) d

/-- The true recurrence period of `iterMove` on the 30×20 grid: the grid
height for vertical directions, the grid width for horizontal ones. -/
def Direction.wrapPeriod : Direction → Nat
  | Direction.Up => 20
  | Direction.Down => 20
  | Direction.Left => 30
  | Direction.Right => 30

/-! ### Concrete states used by witnesses and counterexamples -/

/-- A snake about to move its head onto a cell occupied both by its own body
and by the food: head `(5,5)` moving right, body segment at `(6,5)`. -/
def wSnakeOverlap : Snake :=
  { head := Segment.new (GridPosition.new 5 5)
    dir := Direction.Right
    body := [Segment.new (GridPosition.new 6 5)]
    ate := none
    last_update_dir := Direction.Right
    next_dir := none }

/-- Food on the cell `(6,5)` the snake `wSnakeOverlap` is about to enter. -/
def wFoodAt65 : Food := Food.new (GridPosition.new 6 5)

/-- The snake at the canonical start `(7,10)`. -/
def wSnakeStart : Snake := Snake.new (GridPosition.new 7 10)

/-- A game state whose snake has a turn already queued: pending `dir = Up`
differs from `last_update_dir = Right`, no buffered direction, game running. -/
def wGameBuffered : GameState :=
  { snake :=
      { head := Segment.new (GridPosition.new 5 5)
        dir := Direction.Up
        body := [Segment.new (GridPosition.new 4 5)]
        ate := none
        last_update_dir := Direction.Right
        next_dir := none }
    food := Food.new (GridPosition.new 0 0)
    gameover := false
    last_update := 0 }

/-- A game state with no turn queued (`dir = last_update_dir = Right`). -/
def wGameStraight : GameState :=
  { snake := wSnakeStart
    food := Food.new (GridPosition.new 0 0)
    gameover := false
    last_update := 0 }

/-- A game state that has already ended (`gameover = true`). -/
def wGameOver : GameState :=
  { snake := wSnakeOverlap
    food := Food.new (GridPosition.new 1 1)
    gameover := true
    last_update := 7 }

/-- A snake with a committable buffered turn: `dir = last_update_dir = Up`,
`next_dir = some Left`. -/
def wSnakeQueued : Snake :=
  { head := Segment.new (GridPosition.new 5 5)
    dir := Direction.Up
    body := [Segment.new (GridPosition.new 5 6)]
    ate := none
    last_update_dir := Direction.Up
    next_dir := some Direction.Left }

/-- Food one cell to the right of the canonical start head `(7,10)`. -/
def wFoodAhead : Food := Food.new (GridPosition.new 8 10)

/-! ### Theorems -/

/-- `inverse` pairs opposite directions involutively. -/
theorem Direction.inverse_inverse (d : Direction) : d.inverse.inverse = d := by
  cases d <;> rfl

/-- C7: `wrapped_move` offsets the position by exactly one cell in the given
direction, reducing the moved coordinate with the Euclidean (always
non-negative) remainder modulo the grid dimension; moving Left from `x = 0`
yields `x = W - 1 = 29`, and moving Up from `y = 0` yields `y = H - 1 = 19`. -/
theorem wrapped_move_euclidean_step (p : GridPosition) :
    GridPosition.wrapped_move p Direction.Up = GridPosition.new p.x ((p.y - 1) % 20) ∧
    GridPosition.wrapped_move p Direction.Down = GridPosition.new p.x ((p.y + 1) % 20) ∧
    GridPosition.wrapped_move p Direction.Left = GridPosition.new ((p.x - 1) % 30) p.y ∧
    GridPosition.wrapped_move p Direction.Right = GridPosition.new ((p.x + 1) % 30) p.y ∧
    0 ≤ (GridPosition.wrapped_move p Direction.Left).x ∧
    0 ≤ (GridPosition.wrapped_move p Direction.Up).y ∧
    (p.x = 0 → GridPosition.wrapped_move p Direction.Left = GridPosition.new (GRID_SIZE.1 - 1) p.y) ∧
    (p.y = 0 → GridPosition.wrapped_move p Direction.Up = GridPosition.new p.x (GRID_SIZE.2 - 1)) := by
  refine ⟨rfl, rfl, rfl, rfl, ?_, ?_, ?_, ?_⟩
  · show 0 ≤ (p.x - 1) % GRID_SIZE.1
    exact Int.emod_nonneg _ (by decide)
  · show 0 ≤ (p.y - 1) % GRID_SIZE.2
    exact Int.emod_nonneg _ (by decide)
  · intro h
    have e : GridPosition.wrapped_move p Direction.Left =
        GridPosition.new ((p.x - 1) % 30) p.y := rfl
    rw [e, h]
    simp only [GridPosition.new, GridPosition.mk.injEq]
    exact ⟨by decide, trivial⟩
  · intro h
    have e : GridPosition.wrapped_move p Direction.Up =
        GridPosition.new p.x ((p.y - 1) % 20) := rfl
    rw [e, h]
    simp only [GridPosition.new, GridPosition.mk.injEq]
    exact ⟨trivial, by decide⟩

/-- Witness for C7 at the origin. -/
theorem wrapped_move_euclidean_step_witness :
    GridPosition.wrapped_move (GridPosition.new 0 0) Direction.Left =
      GridPosition.new (GRID_SIZE.1 - 1) (0 : Int) ∧
    GridPosition.wrapped_move (GridPosition.new 0 0) Direction.Up =
      GridPosition.new (0 : Int) (GRID_SIZE.2 - 1) :=
  ⟨(wrapped_move_euclidean_step (GridPosition.new 0 0)).2.2.2.2.2.2.1 rfl,
   (wrapped_move_euclidean_step (GridPosition.new 0 0)).2.2.2.2.2.2.2 rfl⟩

/-- C9: `wrapped_move` preserves the in-range invariant `[0, W) × [0, H)`. -/
theorem wrapped_move_preserves_inRange (p : GridPosition) (d : Direction)
    (hp : p.inRange) : (GridPosition.wrapped_move p d).inRange := by
  obtain ⟨h1, h2, h3, h4⟩ := hp
  simp [GRID_SIZE] at h2 h4
  cases d <;>
    simp [GridPosition.wrapped_move, GridPosition.inRange, GridPosition.new, GRID_SIZE] <;>
    omega

/-- Witness for C9 at the origin moving Left. -/
theorem wrapped_move_preserves_inRange_witness :
    GridPosition.inRange (GridPosition.new 0 0) ∧
    GridPosition.inRange (GridPosition.wrapped_move (GridPosition.new 0 0) Direction.Left) :=
  ⟨by decide, wrapped_move_preserves_inRange (GridPosition.new 0 0) Direction.Left (by decide)⟩

/-- Closed form for iterating `wrapped_move` upwards: the `y` coordinate
decreases by one per tick modulo the grid height 20. -/
theorem iterMove_up_closed (x y : Int) (k : Nat) (h0 : 0 ≤ y) (h1 : y < 20) :
    iterMove k (GridPosition.mk x y) Direction.Up = GridPosition.mk x ((y - k) % 20) := by
  induction k with
  | zero =>
    simp only [iterMove, Nat.cast_zero, sub_zero, GridPosition.mk.injEq,
      eq_self_iff_true, true_and]
    omega
  | succ k ih =>
    simp only [iterMove, ih, GridPosition.wrapped_move, GridPosition.new, GRID_SIZE,
      GridPosition.mk.injEq, eq_self_iff_true, true_and]
    push_cast
    omega

/-- Closed form for iterating `wrapped_move` downwards. -/
theorem iterMove_down_closed (x y : Int) (k : Nat) (h0 : 0 ≤ y) (h1 : y < 20) :
    iterMove k (GridPosition.mk x y) Direction.Down = GridPosition.mk x ((y + k) % 20) := by
  induction k with
  | zero =>
    simp only [iterMove, Nat.cast_zero, add_zero, GridPosition.mk.injEq,
      eq_self_iff_true, true_and]
    omega
  | succ k ih =>
    simp only [iterMove, ih, GridPosition.wrapped_move, GridPosition.new, GRID_SIZE,
      GridPosition.mk.injEq, eq_self_iff_true, true_and]
    push_cast
    omega

/-- Closed form for iterating `wrapped_move` leftwards: the `x` coordinate
decreases by one per tick modulo the grid width 30. -/
theorem iterMove_left_closed (x y : Int) (k : Nat) (h0 : 0 ≤ x) (h1 : x < 30) :
    iterMove k (GridPosition.mk x y) Direction.Left = GridPosition.mk ((x - k) % 30) y := by
  induction k with
  | zero =>
    simp only [iterMove, Nat.cast_zero, sub_zero, GridPosition.mk.injEq,
      eq_self_iff_true, and_true]
    omega
  | succ k ih =>
    simp only [iterMove, ih, GridPosition.wrapped_move, GridPosition.new, GRID_SIZE,
      GridPosition.mk.injEq, eq_self_iff_true, and_true]
    push_cast
    omega

/-- Closed form for iterating `wrapped_move` rightwards. -/
theorem iterMove_right_closed (x y : Int) (k : Nat) (h0 : 0 ≤ x) (h1 : x < 30) :
    iterMove k (GridPosition.mk x y) Direction.Right = GridPosition.mk ((x + k) % 30) y := by
  induction k with
  | zero =>
    simp only [iterMove, Nat.cast_zero, add_zero, GridPosition.mk.injEq,
      eq_self_iff_true, and_true]
    omega
  | succ k ih =>
    simp only [iterMove, ih, GridPosition.wrapped_move, GridPosition.new, GRID_SIZE,
      GridPosition.mk.injEq, eq_self_iff_true, and_true]
    push_cast
    omega

/-- C8 (corrected): for every in-range position, iterating `wrapped_move` with
a fixed direction first returns to the start after exactly `wrapPeriod d`
ticks — the grid height 20 for vertical directions, the grid width 30 for
horizontal ones — and at no earlier positive tick count. -/
theorem iterMove_exact_period (p : GridPosition) (d : Direction) (k : Nat)
    (hp : p.inRange) :
    iterMove d.wrapPeriod p d = p ∧
    (0 < k → k < d.wrapPeriod → iterMove k p d ≠ p) := by
  obtain ⟨x, y⟩ := p
  obtain ⟨h1, h2, h3, h4⟩ := hp
  have hx0 : 0 ≤ x := h1
  have hy0 : 0 ≤ y := h3
  have hx : x < 30 := h2
  have hy : y < 20 := h4
  clear h1 h2 h3 h4
  cases d
  case Up =>
    refine ⟨?_, fun hk1 hk2 heq => ?_⟩
    · rw [show Direction.Up.wrapPeriod = 20 from rfl, iterMove_up_closed x y 20 hy0 hy]
      simp only [GridPosition.mk.injEq, eq_self_iff_true, true_and]
      push_cast
      omega
    · rw [show Direction.Up.wrapPeriod = 20 from rfl] at hk2
      rw [iterMove_up_closed x y k hy0 hy] at heq
      simp only [GridPosition.mk.injEq, eq_self_iff_true, true_and] at heq
      omega
  case Down =>
    refine ⟨?_, fun hk1 hk2 heq => ?_⟩
    · rw [show Direction.Down.wrapPeriod = 20 from rfl, iterMove_down_closed x y 20 hy0 hy]
      simp only [GridPosition.mk.injEq, eq_self_iff_true, true_and]
      push_cast
      omega
    · rw [show Direction.Down.wrapPeriod = 20 from rfl] at hk2
      rw [iterMove_down_closed x y k hy0 hy] at heq
      simp only [GridPosition.mk.injEq, eq_self_iff_true, true_and] at heq
      omega
  case Left =>
    refine ⟨?_, fun hk1 hk2 heq => ?_⟩
    · rw [show Direction.Left.wrapPeriod = 30 from rfl, iterMove_left_closed x y 30 hx0 hx]
      simp only [GridPosition.mk.injEq, eq_self_iff_true, and_true]
      push_cast
      omega
    · rw [show Direction.Left.wrapPeriod = 30 from rfl] at hk2
      rw [iterMove_left_closed x y k hx0 hx] at heq
      simp only [GridPosition.mk.injEq, eq_self_iff_true, and_true] at heq
      omega
  case Right =>
    refine ⟨?_, fun hk1 hk2 heq => ?_⟩
    · rw [show Direction.Right.wrapPeriod = 30 from rfl, iterMove_right_closed x y 30 hx0 hx]
      simp only [GridPosition.mk.injEq, eq_self_iff_true, and_true]
      push_cast
      omega
    · rw [show Direction.Right.wrapPeriod = 30 from rfl] at hk2
      rw [iterMove_right_closed x y k hx0 hx] at heq
      simp only [GridPosition.mk.injEq, eq_self_iff_true, and_true] at heq
      omega

/-- Witness for C8 (corrected) at the origin moving Right, with `k = 7`. -/
theorem iterMove_exact_period_witness :
    GridPosition.inRange (GridPosition.new 0 0) ∧
    (iterMove Direction.Right.wrapPeriod (GridPosition.new 0 0) Direction.Right =
        GridPosition.new 0 0 ∧
      (0 < 7 → 7 < Direction.Right.wrapPeriod →
        iterMove 7 (GridPosition.new 0 0) Direction.Right ≠ GridPosition.new 0 0)) :=
  ⟨by decide, iterMove_exact_period (GridPosition.new 0 0) Direction.Right 7 (by decide)⟩

/-- Counterexample to C8 as stated: the in-range position `(0,0)` moved Up
does not return after `W = 30` ticks, and it already recurs after `20 < 30`
ticks — the vertical period is the grid height, not the grid width. -/
theorem iterMove_width_not_period_for_up :
    GridPosition.inRange (GridPosition.new 0 0) ∧
    iterMove 30 (GridPosition.new 0 0) Direction.Up ≠ GridPosition.new 0 0 ∧
    iterMove 20 (GridPosition.new 0 0) Direction.Up = GridPosition.new 0 0 := by
  decide

/-- C10: `Snake::new p` places its single body segment at `(p.x - 1, p.y)`
with no wrapping; when `p.x = 0` that segment lies outside the grid range,
while the canonical start `(W/4, H/2) = (7, 10)` yields the in-range
segment `(6, 10)`. -/
theorem snake_new_left_edge_out_of_range (p : GridPosition) :
    (Snake.new p).body = [Segment.new (GridPosition.new (p.x - 1) p.y)] ∧
    (p.x = 0 → ¬ (GridPosition.new (p.x - 1) p.y).inRange) ∧
    (Snake.new (GridPosition.new (GRID_SIZE.1 / 4) (GRID_SIZE.2 / 2))).body =
      [Segment.new (GridPosition.new 6 10)] ∧
    (GridPosition.new 6 10).inRange := by
  refine ⟨rfl, ?_, by decide, by decide⟩
  intro h hr
  obtain ⟨ha, -⟩ := hr
  simp only [GridPosition.new] at ha
  omega

/-- Witness for C10 at the left-edge position `(0, 5)`. -/
theorem snake_new_left_edge_out_of_range_witness :
    (Snake.new (GridPosition.new 0 5)).body =
      [Segment.new (GridPosition.new ((GridPosition.new 0 5).x - 1) (GridPosition.new 0 5).y)] ∧
    ¬ (GridPosition.new ((GridPosition.new 0 5).x - 1) (GridPosition.new 0 5).y).inRange :=
  ⟨(snake_new_left_edge_out_of_range (GridPosition.new 0 5)).1,
   (snake_new_left_edge_out_of_range (GridPosition.new 0 5)).2.1 rfl⟩

namespace Snake

/-- When `last_update_dir = dir` and a direction is buffered, the commit step
installs the buffered direction and clears the buffer. -/
theorem commitStep_commit (s : Snake) (d : Direction)
    (hld : s.last_update_dir = s.dir) (hn : s.next_dir = some d) :
    s.commitStep = { s with dir := d, next_dir := none } := by
  unfold commitStep
  rw [hn]
  simp [hld]

/-- When the commit condition fails, the commit step leaves the snake as is. -/
theorem commitStep_skip (s : Snake)
    (h : ¬(s.last_update_dir = s.dir ∧ s.next_dir.isSome)) :
    s.commitStep = s := by
  unfold commitStep
  cases hn : s.next_dir with
  | none => rfl
  | some nd =>
    have hld : ¬s.last_update_dir = s.dir := fun hl => h ⟨hl, by rw [hn]; rfl⟩
    simp [hld]

/-- The commit step never moves the head. -/
theorem commitStep_head (s : Snake) : s.commitStep.head = s.head := by
  unfold commitStep
  cases s.next_dir
  · rfl
  · dsimp only
    split <;> rfl

/-- The commit step never changes the body. -/
theorem commitStep_body (s : Snake) : s.commitStep.body = s.body := by
  unfold commitStep
  cases s.next_dir
  · rfl
  · dsimp only
    split <;> rfl

/-- The trim step never changes the direction. -/
theorem trimStep_dir (s : Snake) : s.trimStep.dir = s.dir := by
  unfold trimStep
  split <;> rfl

/-- The trim step never changes the head. -/
theorem trimStep_head (s : Snake) : s.trimStep.head = s.head := by
  unfold trimStep
  split <;> rfl

/-- The trim step never changes the recorded outcome. -/
theorem trimStep_ate (s : Snake) : s.trimStep.ate = s.ate := by
  unfold trimStep
  split <;> rfl

/-- The trim step never changes the buffered direction. -/
theorem trimStep_next (s : Snake) : s.trimStep.next_dir = s.next_dir := by
  unfold trimStep
  split <;> rfl

/-- The trim step drops the last body segment exactly when nothing was
eaten. -/
theorem trimStep_body (s : Snake) :
    s.trimStep.body = if s.ate.isNone then s.body.dropLast else s.body := by
  unfold trimStep
  split <;> rfl

/-- `Snake::update` leaves `dir` at the direction chosen by the commit step. -/
theorem update_dir (s : Snake) (f : Food) : (s.update f).dir = s.commitStep.dir := by
  show (((s.commitStep.moveStep).ateStep f).trimStep).dir = s.commitStep.dir
  rw [trimStep_dir]
  rfl

/-- `Snake::update` leaves `next_dir` at the buffer left by the commit step. -/
theorem update_next_dir (s : Snake) (f : Food) :
    (s.update f).next_dir = s.commitStep.next_dir := by
  show (((s.commitStep.moveStep).ateStep f).trimStep).next_dir = s.commitStep.next_dir
  rw [trimStep_next]
  rfl

/-- `Snake::update` records the applied direction as `last_update_dir`. -/
theorem update_last_dir (s : Snake) (f : Food) :
    (s.update f).last_update_dir = s.commitStep.dir := by
  show (((s.commitStep.moveStep).ateStep f).trimStep).dir = s.commitStep.dir
  rw [trimStep_dir]
  rfl

/-- The head after `Snake::update` is one `wrapped_move` from the old head in
the committed direction. -/
theorem update_head (s : Snake) (f : Food) :
    (s.update f).head =
      Segment.new (GridPosition.wrapped_move s.head.pos s.commitStep.dir) := by
  show (((s.commitStep.moveStep).ateStep f).trimStep).head = _
  rw [trimStep_head]
  show Segment.new (GridPosition.wrapped_move s.commitStep.head.pos s.commitStep.dir) = _
  rw [commitStep_head]

/-- The outcome recorded by `Snake::update`: self-collision against the
post-push body (old head plus old body) first, then food, else nothing. -/
theorem update_ate (s : Snake) (f : Food) :
    (s.update f).ate =
      if ((s.head :: s.body).any fun seg =>
          GridPosition.wrapped_move s.head.pos s.commitStep.dir == seg.pos) then
        some Ate.Itself
      else if GridPosition.wrapped_move s.head.pos s.commitStep.dir == f.pos then
        some Ate.Food
      else none := by
  show (((s.commitStep.moveStep).ateStep f).trimStep).ate = _
  rw [trimStep_ate]
  show (if (s.commitStep.moveStep).eats_self then some Ate.Itself
        else if (s.commitStep.moveStep).eats f then some Ate.Food
        else none) = _
  unfold eats_self eats moveStep
  dsimp only
  rw [commitStep_head, commitStep_body]
  rfl

/-- The body after `Snake::update`: the old head is pushed onto the front,
and the tail is dropped exactly when the outcome is `none`. -/
theorem update_body (s : Snake) (f : Food) :
    (s.update f).body =
      if (s.update f).ate.isNone then (s.head :: s.body).dropLast
      else s.head :: s.body := by
  have h1 : (s.update f).ate = ((s.commitStep.moveStep).ateStep f).ate := by
    show (((s.commitStep.moveStep).ateStep f).trimStep).ate = _
    rw [trimStep_ate]
  have h2 : ((s.commitStep.moveStep).ateStep f).body = s.head :: s.body := by
    show s.commitStep.head :: s.commitStep.body = _
    rw [commitStep_head, commitStep_body]
  show (((s.commitStep.moveStep).ateStep f).trimStep).body = _
  rw [trimStep_body, h2, h1]

end Snake

/-- C1: the collision/eat check of `Snake.update` runs in strict priority
order — if the new head position occurs in the post-push body (old head
consed onto the old body), the outcome is `Itself` regardless of the food;
only otherwise, if the new head equals the food position, the outcome is
`Food`; else the outcome is `none`. -/
theorem snake_update_collision_priority (s : Snake) (f : Food) :
    (((s.head :: s.body).any fun seg => (s.update f).head.pos == seg.pos) = true →
      (s.update f).ate = some Ate.Itself) ∧
    (((s.head :: s.body).any fun seg => (s.update f).head.pos == seg.pos) = false →
      (s.update f).head.pos = f.pos → (s.update f).ate = some Ate.Food) ∧
    (((s.head :: s.body).any fun seg => (s.update f).head.pos == seg.pos) = false →
      ¬(s.update f).head.pos = f.pos → (s.update f).ate = none) := by
  have hh : (s.update f).head.pos =
      GridPosition.wrapped_move s.head.pos s.commitStep.dir := by
    rw [Snake.update_head]
    rfl
  rw [hh, Snake.update_ate]
  refine ⟨?_, ?_, ?_⟩
  · intro h
    simp [h]
  · intro h hf
    rw [h]
    simp [hf]
  · intro h hf
    rw [h]
    simp [hf]

/-- Witness for C1: a snake whose next head cell holds both a body segment
and the food; the recorded outcome is `Itself`. -/
theorem snake_update_collision_priority_witness :
    ((wSnakeOverlap.head :: wSnakeOverlap.body).any fun seg =>
      (wSnakeOverlap.update wFoodAt65).head.pos == seg.pos) = true ∧
    (wSnakeOverlap.update wFoodAt65).ate = some Ate.Itself :=
  ⟨by decide, (snake_update_collision_priority wSnakeOverlap wFoodAt65).1 (by decide)⟩

/-- C2: every `Snake.update` tick pushes the previous head onto the front of
the body and removes the tail exactly when the outcome is `none`; so a `Food`
tick grows the body by one segment and a `none` tick leaves the length
unchanged. -/
theorem snake_update_growth (s : Snake) (f : Food) :
    ((s.update f).ate = none → (s.update f).body = (s.head :: s.body).dropLast) ∧
    ((s.update f).ate ≠ none → (s.update f).body = s.head :: s.body) ∧
    ((s.update f).ate = some Ate.Food → (s.update f).body.length = s.body.length + 1) ∧
    ((s.update f).ate = none → (s.update f).body.length = s.body.length) := by
  have hb := Snake.update_body s f
  refine ⟨?_, ?_, ?_, ?_⟩ <;> intro h
  · simp [hb, h]
  · obtain ⟨a, ha⟩ := Option.ne_none_iff_exists'.mp h
    simp [hb, ha]
  · simp [hb, h]
  · simp [hb, h]

/-- Witness for C2: the start snake eating food one cell ahead grows by one
segment that tick. -/
theorem snake_update_growth_witness :
    (wSnakeStart.update wFoodAhead).ate = some Ate.Food ∧
    (wSnakeStart.update wFoodAhead).body.length = wSnakeStart.body.length + 1 :=
  ⟨by decide, (snake_update_growth wSnakeStart wFoodAhead).2.2.1 (by decide)⟩

/-- C4: at the start of a `Snake.update` tick, exactly when
`last_update_dir = dir` and a buffered direction exists, the buffer is
committed into `dir` and cleared before the move is computed; otherwise both
`dir` and the buffer survive and the move uses the pending `dir`. -/
theorem snake_update_direction_commit (s : Snake) (f : Food) :
    (∀ d, s.last_update_dir = s.dir → s.next_dir = some d →
      (s.update f).dir = d ∧ (s.update f).next_dir = none ∧
      (s.update f).head.pos = GridPosition.wrapped_move s.head.pos d) ∧
    (¬(s.last_update_dir = s.dir ∧ s.next_dir.isSome) →
      (s.update f).dir = s.dir ∧ (s.update f).next_dir = s.next_dir ∧
      (s.update f).head.pos = GridPosition.wrapped_move s.head.pos s.dir) := by
  constructor
  · intro d hld hn
    have hc := Snake.commitStep_commit s d hld hn
    refine ⟨?_, ?_, ?_⟩
    · rw [Snake.update_dir, hc]
    · rw [Snake.update_next_dir, hc]
    · rw [Snake.update_head, hc]
      rfl
  · intro h
    have hc := Snake.commitStep_skip s h
    refine ⟨?_, ?_, ?_⟩
    · rw [Snake.update_dir, hc]
    · rw [Snake.update_next_dir, hc]
    · rw [Snake.update_head, hc]
      rfl

/-- Witness for C4: a snake with `dir = last_update_dir = Up` and a buffered
`Left` commits the buffer and moves left. -/
theorem snake_update_direction_commit_witness :
    (wSnakeQueued.update wFoodAt65).dir = Direction.Left ∧
    (wSnakeQueued.update wFoodAt65).next_dir = none ∧
    (wSnakeQueued.update wFoodAt65).head.pos =
      GridPosition.wrapped_move wSnakeQueued.head.pos Direction.Left :=
  (snake_update_direction_commit wSnakeQueued wFoodAt65).1 Direction.Left rfl rfl

/-- C3 (amended): when the game is running and no turn is queued (the pending
`dir` equals `last_update_dir`), an input whose direction is the exact
inverse of the current heading changes neither `dir` nor `next_dir`. With a
turn already queued the guard does not hold as stated — see the
counterexample. -/
theorem key_down_reversal_guard (g : GameState) (k : KeyCode) (r : GridPosition)
    (d : Direction)
    (hgo : g.gameover = false)
    (hq : g.snake.dir = g.snake.last_update_dir)
    (hk : Direction.from_keycode k = some d)
    (hd : d = g.snake.last_update_dir.inverse) :
    (g.key_down_event k r).snake.dir = g.snake.dir ∧
    (g.key_down_event k r).snake.next_dir = g.snake.next_dir := by
  have hinv : d.inverse = g.snake.last_update_dir := by
    rw [hd, Direction.inverse_inverse]
  have h1 : ¬(g.snake.dir ≠ g.snake.last_update_dir ∧ d.inverse ≠ g.snake.dir) := by
    rintro ⟨ha, -⟩
    exact ha hq
  have h2 : ¬d.inverse ≠ g.snake.last_update_dir := fun hb => hb hinv
  unfold GameState.key_down_event
  rw [hk]
  simp [h1, h2, hgo]

/-- Witness for C3 (amended): heading Right with no turn queued, pressing
Left (the inverse of the heading) changes nothing. -/
theorem key_down_reversal_guard_witness :
    (wGameStraight.key_down_event KeyCode.Left (GridPosition.new 0 0)).snake.dir =
      wGameStraight.snake.dir ∧
    (wGameStraight.key_down_event KeyCode.Left (GridPosition.new 0 0)).snake.next_dir =
      wGameStraight.snake.next_dir :=
  key_down_reversal_guard wGameStraight KeyCode.Left (GridPosition.new 0 0)
    Direction.Left rfl rfl rfl rfl

/-- Counterexample to C3 as stated: in `wGameBuffered` (pending `dir = Up`,
`last_update_dir = Right`, empty buffer, game running), pressing Left — the
exact inverse of the last-applied heading Right — sets `next_dir`, and
pressing Down — the exact inverse of the pending `dir = Up` — changes `dir`.
So with a turn queued, the handler does change `dir`/`next_dir` on
inverse-of-heading input. -/
theorem key_down_inverse_input_mutates :
    Direction.from_keycode KeyCode.Left =
      some wGameBuffered.snake.last_update_dir.inverse ∧
    (wGameBuffered.key_down_event KeyCode.Left (GridPosition.new 0 0)).snake.next_dir ≠
      wGameBuffered.snake.next_dir ∧
    Direction.from_keycode KeyCode.Down = some wGameBuffered.snake.dir.inverse ∧
    (wGameBuffered.key_down_event KeyCode.Down (GridPosition.new 0 0)).snake.dir ≠
      wGameBuffered.snake.dir := by
  decide

/-- C5: whenever the key-down handler fires while `gameover` is true —
whatever the key code — the session is fully reset: the snake is replaced by
`Snake::new` at the canonical start `(W/4, H/2) = (7, 10)` (head there, one
body segment at `(6, 10)`, facing Right, total length 2), the food is
replaced by the freshly drawn random position, and `gameover` is cleared. -/
theorem key_down_restart_on_gameover (g : GameState) (k : KeyCode) (r : GridPosition)
    (hgo : g.gameover = true) :
    (g.key_down_event k r).snake =
      Snake.new (GridPosition.new (GRID_SIZE.1 / 4) (GRID_SIZE.2 / 2)) ∧
    (g.key_down_event k r).snake.head.pos = GridPosition.new 7 10 ∧
    (g.key_down_event k r).snake.body = [Segment.new (GridPosition.new 6 10)] ∧
    (g.key_down_event k r).snake.dir = Direction.Right ∧
    (g.key_down_event k r).food = Food.new r ∧
    (g.key_down_event k r).gameover = false := by
  have h1 : g.key_down_event k r =
      { snake := Snake.new (GridPosition.new (GRID_SIZE.1 / 4) (GRID_SIZE.2 / 2))
        food := Food.new r
        gameover := false
        last_update := g.last_update } := by
    unfold GameState.key_down_event
    cases hk : Direction.from_keycode k with
    | none => simp [hgo]
    | some dd =>
      by_cases hc1 : g.snake.dir ≠ g.snake.last_update_dir ∧ dd.inverse ≠ g.snake.dir
      · simp [hc1, hgo]
      · by_cases hc2 : dd.inverse ≠ g.snake.last_update_dir <;> simp [hc1, hc2, hgo]
  rw [h1]
  refine ⟨rfl, ?_, ?_, rfl, rfl, rfl⟩
  · show (Snake.new (GridPosition.new (GRID_SIZE.1 / 4) (GRID_SIZE.2 / 2))).head.pos =
      GridPosition.new 7 10
    decide
  · show (Snake.new (GridPosition.new (GRID_SIZE.1 / 4) (GRID_SIZE.2 / 2))).body =
      [Segment.new (GridPosition.new 6 10)]
    decide

/-- Witness for C5: a non-direction key on a finished game restarts it. -/
theorem key_down_restart_on_gameover_witness :
    (wGameOver.key_down_event KeyCode.Other (GridPosition.new 3 4)).snake =
      Snake.new (GridPosition.new (GRID_SIZE.1 / 4) (GRID_SIZE.2 / 2)) ∧
    (wGameOver.key_down_event KeyCode.Other (GridPosition.new 3 4)).snake.head.pos =
      GridPosition.new 7 10 ∧
    (wGameOver.key_down_event KeyCode.Other (GridPosition.new 3 4)).snake.body =
      [Segment.new (GridPosition.new 6 10)] ∧
    (wGameOver.key_down_event KeyCode.Other (GridPosition.new 3 4)).snake.dir =
      Direction.Right ∧
    (wGameOver.key_down_event KeyCode.Other (GridPosition.new 3 4)).food =
      Food.new (GridPosition.new 3 4) ∧
    (wGameOver.key_down_event KeyCode.Other (GridPosition.new 3 4)).gameover = false :=
  key_down_restart_on_gameover wGameOver KeyCode.Other (GridPosition.new 3 4) rfl

/-- C6: once `gameover` is true, a `GameState.update` call leaves the snake
and the food unchanged and the game still over; the timestamp is either
refreshed to `now` (when the fixed-timestep gate passes) or untouched. -/
theorem game_update_frozen_on_gameover (g : GameState) (now : Nat) (r : GridPosition)
    (hgo : g.gameover = true) :
    (g.update now r).snake = g.snake ∧
    (g.update now r).food = g.food ∧
    (g.update now r).gameover = true ∧
    ((g.update now r).last_update = now ∨ (g.update now r).last_update = g.last_update) := by
  unfold GameState.update
  by_cases ht : MILLIS_PER_UPDATE ≤ now - g.last_update
  · rw [if_pos ht]
    simp [hgo]
  · rw [if_neg ht]
    exact ⟨rfl, rfl, hgo, Or.inr rfl⟩

/-- Witness for C6: a tick on a finished game changes neither snake nor
food. -/
theorem game_update_frozen_on_gameover_witness :
    (wGameOver.update 1000 (GridPosition.new 2 2)).snake = wGameOver.snake ∧
    (wGameOver.update 1000 (GridPosition.new 2 2)).food = wGameOver.food ∧
    (wGameOver.update 1000 (GridPosition.new 2 2)).gameover = true ∧
    ((wGameOver.update 1000 (GridPosition.new 2 2)).last_update = 1000 ∨
      (wGameOver.update 1000 (GridPosition.new 2 2)).last_update = wGameOver.last_update) :=
  game_update_frozen_on_gameover wGameOver 1000 (GridPosition.new 2 2) rfl
